import Mathlib

/-!
Verification of the core subtitle-extraction pipeline of `main.py`
(video hardsub OCR tool): the SRT timestamp formatter, the OCR text
observation extractor, the subtitle segment state machine, the minimum
duration filter, the SRT serializer, and the worker loop with its
cancellation and exception behaviour.

Each definition is a shallow embedding of the corresponding Python code,
with comments pointing at the source lines of `main.py`.
-/

set_option autoImplicit false

namespace VideoOcr

/-! ### Timestamp formatter (`ms_to_srt_time`, main.py lines 22-32)

The Python function computes `str(datetime.timedelta(seconds=ms/1000))`
and then replaces the fractional part: if the string contains a `'.'` it
keeps the first three fractional digits after a `','`, otherwise it
appends `",000"`.

CPython's `timedelta.__str__` produces
`[D day[s], ]H:MM:SS[.ffffff]` where
  * `D` is `seconds // 86400` (present only when nonzero, with an
    `" day, "` / `" days, "` suffix depending on `D == 1`),
  * `H` is the hour-of-day rendered with `"%d"` (NOT zero padded),
  * `MM`, `SS` are rendered with `"%02d"`,
  * the `.ffffff` part is rendered with `".%06d"` and is present exactly
    when the microsecond field is nonzero.
For a nonnegative integer `ms` the float `ms/1000` converts to exactly
`ms*1000` microseconds (the rounding to the nearest microsecond inside
`timedelta` recovers the exact value for every realistic magnitude), so
the embedding below uses exact natural arithmetic.
-/

/-- Decimal rendering of `n` zero padded to `w` digits, as produced by
C-style `"%0wd"` for `n < 10^w` (the only situations in which it is used
below: minutes and seconds are `< 60`, microseconds are `< 10^6`). -/
def padDigits (w n : Nat) : String :=
  ⟨(List.range w).map fun i => Char.ofNat (48 + n / 10 ^ (w - 1 - i) % 10)⟩

/-- Day count of `timedelta(seconds=ms/1000)`: `ms / 1000 // 86400`. -/
def tdDays (ms : Nat) : Nat := ms / 1000 / 86400

/-- The `H:MM:SS` core of `str(timedelta(seconds=ms/1000))`: hour of day
unpadded, minutes and seconds zero padded to two digits. -/
def tdCore (ms : Nat) : String :=
  toString (ms / 1000 % 86400 / 3600) ++ ":" ++
    padDigits 2 (ms / 1000 % 86400 / 60 % 60) ++ ":" ++
    padDigits 2 (ms / 1000 % 86400 % 60)

/-- Everything of `str(timedelta(seconds=ms/1000))` before the optional
fractional part: an optional `"D day[s], "` prefix followed by `tdCore`. -/
def tdMain (ms : Nat) : String :=
  if tdDays ms = 0 then tdCore ms
  else toString (tdDays ms) ++ (if tdDays ms = 1 then " day, " else " days, ") ++ tdCore ms

/-- Full `str(datetime.timedelta(seconds=ms/1000))`; the `".%06d"`
microsecond suffix is present exactly when `ms % 1000 ≠ 0`. -/
def tdStr (ms : Nat) : String :=
  if ms % 1000 = 0 then tdMain ms
  else tdMain ms ++ "." ++ padDigits 6 (ms % 1000 * 1000)

/-- `ms_to_srt_time` (main.py lines 22-32).  The Python code splits the
`timedelta` string on `'.'`; the only possible `'.'` is the one opening
the microsecond suffix, so `'.' in fin` holds exactly when
`ms % 1000 ≠ 0`, in which case `main` is `tdMain ms` and `micro[:3]` is
the first three characters of the six microsecond digits. -/
def ms_to_srt_time (ms : Nat) : String :=
  if ms % 1000 = 0 then tdStr ms ++ ",000"
  else tdMain ms ++ "," ++ ⟨(padDigits 6 (ms % 1000 * 1000)).data.take 3⟩

/-- Reference formatter following the spec's format description, with the
hour field corrected to the unpadded rendering the code actually
produces: `H:MM:SS,mmm` with `H = ms / 3600000` unpadded, minutes and
seconds zero padded to two digits and the millisecond remainder zero
padded to exactly three digits. -/
def srtTimeSpec (ms : Nat) : String :=
  toString (ms / 3600000) ++ ":" ++ padDigits 2 (ms / 60000 % 60) ++ ":" ++
    padDigits 2 (ms / 1000 % 60) ++ "," ++ padDigits 3 (ms % 1000)

/-! ### Text observation extractor (main.py lines 95-107)

A RapidOCR detection is a triple `[box, text, score]`; the worker reads
only `line[1]` (the text) and `line[2]` (the score).  The score may be a
float, a string, or missing; `float(line[2])` raising `TypeError`,
`ValueError` or `IndexError` is modelled by `score = none`, and the
`except` branch replaces it by `0.0`.  Scores and the threshold are
modelled as rationals. -/

structure Detection where
  text : String
  score : Option ℚ
  deriving DecidableEq

/-- Defensive score coercion (main.py lines 101-104): an unparseable or
missing score becomes `0.0`. -/
def coerceScore : Option ℚ → ℚ
  | some q => q
  | none => 0

/-- The `texts` list accumulated by the loop of main.py lines 99-106:
the texts of the detections whose coerced score strictly exceeds the
threshold, in reported order. -/
def surviving (threshold : ℚ) : List Detection → List String
  | [] => []
  | l :: rest =>
      if coerceScore l.score > threshold then l.text :: surviving threshold rest
      else surviving threshold rest

/-- Python `str.strip()` with no argument: remove leading and trailing
whitespace characters. -/
def pyStrip (s : String) : String :=
  ⟨((s.data.dropWhile Char.isWhitespace).reverse.dropWhile Char.isWhitespace).reverse⟩

/-- `detected_text` for one sample (main.py lines 95-107):
`" ".join(texts).strip()`.  For an empty or missing detection list
this is `""`, exactly as in the Python code where `detected_text`
stays `""` when `result` is falsy. -/
def detectedText (threshold : ℚ) (result : List Detection) : String :=
  pyStrip (String.intercalate " " (surviving threshold result))

/-! ### Segment builder state machine (main.py lines 64-66 and 111-126)

A subtitle segment is the dict `{"text": ..., "start": ..., "end": ...}`.
Timestamps are the spec's nonnegative integer milliseconds (the code
carries the floats returned by `CAP_PROP_POS_MSEC`; nothing below
depends on fractional parts). -/

structure Sub where
  text : String
  start_ms : Nat
  end_ms : Nat
  deriving DecidableEq

/-- One step of the subtitle logic (main.py lines 111-126) on the state
`(current_sub, subtitles)` for the observation `(current_ms,
detected_text)`:
  * nonempty text equal to the open text extends `end`;
  * nonempty differing text appends the open segment (when one is open)
    and opens a new segment with `start = end = current_ms`;
  * empty text appends the open segment (when one is open) and resets
    `current_sub` to the empty sentinel. -/
def stepSub (st : Sub × List Sub) (obs : Nat × String) : Sub × List Sub :=
  if obs.2 ≠ "" then
    if st.1.text = obs.2 then ({st.1 with end_ms := obs.1}, st.2)
    else (⟨obs.2, obs.1, obs.1⟩, if st.1.text ≠ "" then st.2 ++ [st.1] else st.2)
  else
    if st.1.text ≠ "" then (⟨"", 0, 0⟩, st.2 ++ [st.1]) else st

/-- Trailing flush after the sampling loop (main.py lines 149-151): the
still-open segment, if any, is appended to `subtitles`. -/
def flushSegs (st : Sub × List Sub) : List Sub :=
  if st.1.text ≠ "" then st.2 ++ [st.1] else st.2

/-- The segment builder on a whole observation stream: fold the per
observation step from the initial state `current_sub = {"", 0, 0}`,
`subtitles = []` (main.py lines 64-66), then flush. -/
def buildSegments (obs : List (Nat × String)) : List Sub :=
  flushSegs (obs.foldl stepSub (⟨"", 0, 0⟩, []))

/-! ### Duration filter and SRT serializer (`write_srt`, main.py lines 168-181) -/

/-- One SRT block as written by the three `f.write` calls of main.py
lines 178-180: index line, timing line, text line, blank separator. -/
def srtBlock (idx : Nat) (s : Sub) : String :=
  toString idx ++ "\n" ++ ms_to_srt_time s.start_ms ++ " --> " ++
    ms_to_srt_time s.end_ms ++ "\n" ++ s.text ++ "\n\n"

/-- The `(idx, segment)` pairs emitted by the loop of main.py lines
171-181, in emission order: a segment with `end - start < 100` is
skipped (`continue`) without consuming an index; otherwise it is written
with the current index and `idx` is incremented. -/
def srtBlocks : Nat → List Sub → List (Nat × Sub)
  | _, [] => []
  | idx, s :: rest =>
      if s.end_ms - s.start_ms < 100 then srtBlocks idx rest
      else (idx, s) :: srtBlocks (idx + 1) rest

/-- The full text written by `write_srt` (main.py lines 168-181): the
sequential writes concatenate the blocks for `srtBlocks 1 subs`.
(With `Nat` timestamps, `end_ms - start_ms` is truncated subtraction;
a segment with `end < start` has truncated duration `0 < 100` and is
dropped, exactly as the Python signed comparison drops its negative
duration, so the filter outcome agrees for all inputs.) -/
def write_srt (subs : List Sub) : String :=
  String.join ((srtBlocks 1 subs).map fun p => srtBlock p.1 p.2)

/-- Reference numbering following the spec's serialization contract:
consecutive 1-based indices with no gaps, in list order. -/
def specNumbered : Nat → List Sub → List (Nat × Sub)
  | _, [] => []
  | idx, s :: rest => (idx, s) :: specNumbered (idx + 1) rest

/-- The successive arguments of the `f.write` calls issued by `write_srt`
(main.py lines 178-180), in call order: three writes per emitted block.
Their concatenation is the complete file (`writeCalls_join` below). -/
def writeCalls (subs : List Sub) : List String :=
  (srtBlocks 1 subs).flatMap fun p =>
    [toString p.1 ++ "\n",
     ms_to_srt_time p.2.start_ms ++ " --> " ++ ms_to_srt_time p.2.end_ms ++ "\n",
     p.2.text ++ "\n\n"]

/-! ### Worker loop (`OCRWorker.run`, main.py lines 50-166)

The loop consumes frames in order, polling the cooperative cancellation
flag `self.is_running` at the top of each iteration (line 76).  Every
frame of the model carries an optional exception (a decode or OCR
failure raised while handling that frame; the `except` of main.py line
163 catches it), the per-frame image dimensions `frame.shape[:2]`
(line 84), the OCR result for the cropped region and the
`CAP_PROP_POS_MSEC` timestamp. -/

structure Roi where
  x : Int
  y : Int
  w : Int
  h : Int
  deriving DecidableEq

structure FrameInput where
  w_vid : Nat
  h_vid : Nat
  raises : Option String
  ocr : List Detection
  pos_msec : Nat
  deriving DecidableEq

/-- ROI clamping check of main.py lines 85-88: the clamped rectangle
`[max(0,rx), max(0,ry)] .. [min(w_vid, rx+rw), min(h_vid, ry+rh)]`
has positive area iff `x2 > x1 and y2 > y1`. -/
def cropNonempty (roi : Roi) (f : FrameInput) : Bool :=
  decide (min (f.w_vid : Int) (roi.x + roi.w) > max 0 roi.x) &&
    decide (min (f.h_vid : Int) (roi.y + roi.h) > max 0 roi.y)

/-- Processing of one sampled frame (main.py lines 83-126): when the
clamped crop is nonempty, OCR runs and the subtitle state machine steps
on `(current_ms, detected_text)`; otherwise the whole block — including
the subtitle logic — is skipped and the state is left untouched. -/
def processSample (roi : Roi) (threshold : ℚ) (st : Sub × List Sub)
    (f : FrameInput) : Sub × List Sub :=
  if cropNonempty roi f then stepSub st (f.pos_msec, detectedText threshold f.ocr)
  else st

/-- Whether the `self.is_running` flag reads `False` at the poll that
follows `i` consumed frames: the model `cancelAt = some k` means the
external `stop()` call lands between the `k`-th and `(k+1)`-th frame
reads, so every poll from index `k` on sees `False`. -/
def cancelledBy (cancelAt : Option Nat) (i : Nat) : Bool :=
  match cancelAt with
  | none => false
  | some k => decide (k ≤ i)

/-- The sampling loop of main.py lines 76-147 starting at frame index
`i` with subtitle state `st`: returns `(frames consumed, exception
message if one escaped, final subtitle state)`.  The loop polls the
cancellation flag (line 76), reads a frame (stream end breaks the loop,
lines 77-79), and runs the crop/OCR/subtitle block when `frame_idx %
skip_frames == 0` with `skip_frames = 5` (lines 62, 82). -/
def runFrames (roi : Roi) (threshold : ℚ) (cancelAt : Option Nat) :
    Nat → Sub × List Sub → List FrameInput → Nat × Option String × (Sub × List Sub)
  | i, st, [] => (i, none, st)
  | i, st, f :: rest =>
      if cancelledBy cancelAt i then (i, none, st)
      else
        match f.raises with
        | some msg => (i + 1, some msg, st)
        | none =>
            runFrames roi threshold cancelAt (i + 1)
              (if i % 5 = 0 then processSample roi threshold st f else st) rest

/-- Externally observable outcome of one `OCRWorker.run` invocation.
`file_out` is the content of the output file on disk at termination
(`none` when the file was never opened). -/
structure RunResult where
  consumed : Nat
  released : Bool
  error_sig : Option String
  finished_sig : Option String
  file_out : Option String
  deriving DecidableEq

/-- `OCRWorker.run` (main.py lines 50-166): run the sampling loop; on an
escaped exception the `except` branch (lines 163-166) emits the error
signal with the original description and nothing else happens (in
particular `cap.release()` on line 153 is never reached and the output
file was never opened).  Otherwise the trailing segment is flushed
(lines 149-151), the capture is released (line 153), and the early
`return` of lines 156-157 discards everything when the cancellation
flag is down; else `write_srt` runs and the finished signal carries the
output path (lines 160-161).

The file write itself sits inside the `try` block, so it too can raise:
`writeFault = some (m, msg)` means the `(m+1)`-th `f.write` call of
main.py lines 178-180 raises `msg` (when there are at least `m + 1`
calls; `open(..., 'w')` having truncated the file first).  The `with`
block closes — and thereby flushes — the file even when a write raises,
so the on-disk content is the concatenation of the first `m` write
arguments, and the `except` branch then emits the error signal: a
partially written output file remains. -/
def runWorker (roi : Roi) (threshold : ℚ) (output_path : String)
    (frames : List FrameInput) (cancelAt : Option Nat)
    (writeFault : Option (Nat × String)) : RunResult :=
  match runFrames roi threshold cancelAt 0 (⟨"", 0, 0⟩, []) frames with
  | (n, some msg, _) => ⟨n, false, some msg, none, none⟩
  | (n, none, st) =>
      if cancelledBy cancelAt n then ⟨n, true, none, none, none⟩
      else
        match writeFault with
        | some (m, msg) =>
            if m < (writeCalls (flushSegs st)).length then
              ⟨n, true, some msg, none,
                some (String.join ((writeCalls (flushSegs st)).take m))⟩
            else ⟨n, true, none, some output_path, some (write_srt (flushSegs st))⟩
        | none => ⟨n, true, none, some output_path, some (write_srt (flushSegs st))⟩

/-! ### Invariant used for claim C10 -/

/-- Invariant of the segment builder state under the strict upper bound
`U` on every timestamp seen so far: the closed list is pairwise
separated and well formed with all ends below `U`, and an open segment
is well formed, below `U`, and starts strictly after every closed
segment's end. -/
def SBInv (st : Sub × List Sub) (U : Nat) : Prop :=
  st.2.Pairwise (fun a b => a.end_ms < b.start_ms) ∧
  (∀ s ∈ st.2, s.start_ms ≤ s.end_ms) ∧
  (∀ s ∈ st.2, s.end_ms < U) ∧
  (st.1.text ≠ "" → st.1.start_ms ≤ st.1.end_ms ∧ st.1.end_ms < U ∧
      ∀ s ∈ st.2, s.end_ms < st.1.start_ms)

/-! ## Helper lemmas -/

theorem str_append_assoc (a b c : String) : a ++ b ++ c = a ++ (b ++ c) := by
  cases a with | mk la =>
  cases b with | mk lb =>
  cases c with | mk lc =>
  show (⟨la ++ lb ++ lc⟩ : String) = ⟨la ++ (lb ++ lc)⟩
  rw [List.append_assoc]

theorem str_append_empty (s : String) : s ++ "" = s := by
  cases s with | mk l =>
  show (⟨l ++ []⟩ : String) = ⟨l⟩
  rw [List.append_nil]

theorem str_empty_append (s : String) : "" ++ s = s := by
  cases s with | mk l =>
  show (⟨[] ++ l⟩ : String) = ⟨l⟩
  rw [List.nil_append]

theorem str_join_shift (l : List String) :
    ∀ s : String, l.foldl (· ++ ·) s = s ++ l.foldl (· ++ ·) "" := by
  induction l with
  | nil => intro s; exact (str_append_empty s).symm
  | cons b bl ih =>
      intro s
      simp only [List.foldl_cons]
      rw [ih (s ++ b), ih ("" ++ b), str_empty_append, str_append_assoc]

theorem str_join_cons (a : String) (l : List String) :
    String.join (a :: l) = a ++ String.join l := by
  show (a :: l).foldl (· ++ ·) "" = a ++ l.foldl (· ++ ·) ""
  simp only [List.foldl_cons]
  rw [str_join_shift l ("" ++ a), str_empty_append]

theorem str_join_append (l1 l2 : List String) :
    String.join (l1 ++ l2) = String.join l1 ++ String.join l2 := by
  show (l1 ++ l2).foldl (· ++ ·) "" = _
  rw [List.foldl_append]
  exact str_join_shift l2 _

theorem padDigits_take3 (r : Nat) :
    (⟨(padDigits 6 (r * 1000)).data.take 3⟩ : String) = padDigits 3 r := by
  have h5 : r * 1000 / 10 ^ 5 % 10 = r / 10 ^ 2 % 10 := by
    have e1 : (10:Nat) ^ 5 = 100000 := by norm_num
    have e2 : (10:Nat) ^ 2 = 100 := by norm_num
    rw [e1, e2]; omega
  have h4 : r * 1000 / 10 ^ 4 % 10 = r / 10 ^ 1 % 10 := by
    have e1 : (10:Nat) ^ 4 = 10000 := by norm_num
    have e2 : (10:Nat) ^ 1 = 10 := by norm_num
    rw [e1, e2]; omega
  have h3 : r * 1000 / 10 ^ 3 % 10 = r / 10 ^ 0 % 10 := by
    have e1 : (10:Nat) ^ 3 = 1000 := by norm_num
    have e2 : (10:Nat) ^ 0 = 1 := by norm_num
    rw [e1, e2]; omega
  show (⟨[Char.ofNat (48 + r * 1000 / 10 ^ 5 % 10),
          Char.ofNat (48 + r * 1000 / 10 ^ 4 % 10),
          Char.ofNat (48 + r * 1000 / 10 ^ 3 % 10)]⟩ : String)
      = ⟨[Char.ofNat (48 + r / 10 ^ 2 % 10),
          Char.ofNat (48 + r / 10 ^ 1 % 10),
          Char.ofNat (48 + r / 10 ^ 0 % 10)]⟩
  rw [h5, h4, h3]

example : ms_to_srt_time 0 = "0:00:00,000" := by decide
example : ms_to_srt_time 1 = "0:00:00,001" := by decide
example : ms_to_srt_time 1500 = "0:00:01,500" := by decide
example : ms_to_srt_time 3661000 = "1:01:01,000" := by decide
example : ms_to_srt_time 86399999 = "23:59:59,999" := by decide
example : ms_to_srt_time 90000000 = "1 day, 1:00:00,000" := by decide
example : ms_to_srt_time 172800500 = "2 days, 0:00:00,500" := by decide
example : ms_to_srt_time 12345678 = "3:25:45,678" := by decide

theorem stepSub_extend (cur : Sub) (subs : List Sub) (t : Nat) (s : String)
    (hs : s ≠ "") (hcur : cur.text = s) :
    stepSub (cur, subs) (t, s) = ({cur with end_ms := t}, subs) := by
  simp [stepSub, hs, hcur]

theorem stepSub_change (cur : Sub) (subs : List Sub) (t : Nat) (s : String)
    (hs : s ≠ "") (hne : cur.text ≠ s) (hopen : cur.text ≠ "") :
    stepSub (cur, subs) (t, s) = (⟨s, t, t⟩, subs ++ [cur]) := by
  simp [stepSub, hs, hne, hopen]

theorem stepSub_fresh (cur : Sub) (subs : List Sub) (t : Nat) (s : String)
    (hs : s ≠ "") (hcl : cur.text = "") :
    stepSub (cur, subs) (t, s) = (⟨s, t, t⟩, subs) := by
  simp [stepSub, hs, hcl, Ne.symm hs]

theorem stepSub_empty_close (cur : Sub) (subs : List Sub) (t : Nat)
    (hopen : cur.text ≠ "") :
    stepSub (cur, subs) (t, "") = (⟨"", 0, 0⟩, subs ++ [cur]) := by
  simp [stepSub, hopen]

theorem stepSub_empty_stay (cur : Sub) (subs : List Sub) (t : Nat)
    (hcl : cur.text = "") :
    stepSub (cur, subs) (t, "") = (cur, subs) := by
  simp [stepSub, hcl]

/-- Folding a run of identical nonempty observations over an open segment
with the same text only moves its `end_ms` to the last timestamp of the
run. -/
theorem extendRun (ts : List Nat) :
    ∀ (cur : Sub) (subs : List Sub) (s : String), cur.text = s → s ≠ "" →
      List.foldl stepSub (cur, subs) (ts.map fun u => (u, s))
        = ({cur with end_ms := ts.getLastD cur.end_ms}, subs) := by
  induction ts with
  | nil =>
      intro cur subs s hcur hs
      simp [List.getLastD]
  | cons u us ih =>
      intro cur subs s hcur hs
      simp only [List.map_cons, List.foldl_cons]
      rw [stepSub_extend cur subs u s hs hcur]
      rw [ih {cur with end_ms := u} subs s hcur hs]
      rw [List.getLastD_cons]

/-- The serializer's emission sequence is the sequential renumbering of
the duration-filtered segment list. -/
theorem srtBlocks_eq_specNumbered (subs : List Sub) :
    ∀ idx, srtBlocks idx subs
      = specNumbered idx (subs.filter fun s => decide (100 ≤ s.end_ms - s.start_ms)) := by
  induction subs with
  | nil => intro idx; rfl
  | cons s rest ih =>
      intro idx
      by_cases hdur : s.end_ms - s.start_ms < 100
      · have hnot : ¬ (100 ≤ s.end_ms - s.start_ms) := by omega
        simp [srtBlocks, hdur, List.filter_cons, hnot, ih]
      · have hge : 100 ≤ s.end_ms - s.start_ms := by omega
        simp [srtBlocks, hdur, List.filter_cons, hge, ih, specNumbered]

/-- The concatenation of all `f.write` arguments is the complete file
content produced by `write_srt`. -/
theorem writeCalls_join (subs : List Sub) :
    String.join (writeCalls subs) = write_srt subs := by
  unfold writeCalls write_srt
  generalize srtBlocks 1 subs = bl
  induction bl with
  | nil => rfl
  | cons p rest ih =>
      simp only [List.flatMap_cons, List.map_cons]
      have hjoin : String.join
          [toString p.1 ++ "\n",
            ms_to_srt_time p.2.start_ms ++ " --> " ++ ms_to_srt_time p.2.end_ms ++ "\n",
            p.2.text ++ "\n\n"]
          = srtBlock p.1 p.2 := by
        rw [str_join_cons, str_join_cons, str_join_cons]
        have h0 : String.join ([] : List String) = "" := rfl
        rw [h0, str_append_empty]
        simp only [srtBlock, str_append_assoc]
      rw [str_join_append, ih, hjoin, str_join_cons]

theorem specNumbered_map_snd (l : List Sub) :
    ∀ idx, (specNumbered idx l).map Prod.snd = l := by
  induction l with
  | nil => intro idx; rfl
  | cons s rest ih => intro idx; simp [specNumbered, ih]

theorem SBInv_mono {st : Sub × List Sub} {U U' : Nat} (h : U ≤ U')
    (hinv : SBInv st U) : SBInv st U' := by
  obtain ⟨hpw, hwf, hub, hopen⟩ := hinv
  refine ⟨hpw, hwf, fun x hx => lt_of_lt_of_le (hub x hx) h, fun hc => ?_⟩
  obtain ⟨h1, h2, h3⟩ := hopen hc
  exact ⟨h1, lt_of_lt_of_le h2 h, h3⟩

theorem SBInv_init (U : Nat) : SBInv ((⟨"", 0, 0⟩ : Sub), ([] : List Sub)) U := by
  refine ⟨List.Pairwise.nil, by simp, by simp, fun hc => absurd rfl hc⟩

theorem SBInv_step (cur : Sub) (subs : List Sub) (t : Nat) (s : String)
    (h : SBInv (cur, subs) t) : SBInv (stepSub (cur, subs) (t, s)) (t + 1) := by
  obtain ⟨hpw, hwf, hub, hopen⟩ := h
  by_cases hs : s = ""
  · subst hs
    by_cases hcur : cur.text = ""
    · rw [stepSub_empty_stay cur subs t hcur]
      exact ⟨hpw, hwf, fun x hx => Nat.lt_succ_of_lt (hub x hx),
        fun hc => absurd hcur hc⟩
    · rw [stepSub_empty_close cur subs t hcur]
      obtain ⟨hcwf, hcub, hsep⟩ := hopen hcur
      refine ⟨?_, ?_, ?_, fun hc => absurd rfl hc⟩
      · rw [List.pairwise_append]
        refine ⟨hpw, by simp, fun a ha b hb => ?_⟩
        simp at hb; subst hb; exact hsep a ha
      · intro x hx
        rcases List.mem_append.mp hx with h1 | h2
        · exact hwf x h1
        · simp at h2; subst h2; exact hcwf
      · intro x hx
        rcases List.mem_append.mp hx with h1 | h2
        · exact Nat.lt_succ_of_lt (hub x h1)
        · simp at h2; subst h2; exact Nat.lt_succ_of_lt hcub
  · by_cases hcur : cur.text = s
    · rw [stepSub_extend cur subs t s hs hcur]
      obtain ⟨hcwf, hcub, hsep⟩ := hopen (by rw [hcur]; exact hs)
      refine ⟨hpw, hwf, fun x hx => Nat.lt_succ_of_lt (hub x hx), fun _ => ?_⟩
      exact ⟨le_trans hcwf (le_of_lt hcub), Nat.lt_succ_self t, fun x hx => hsep x hx⟩
    · by_cases hcc : cur.text = ""
      · rw [stepSub_fresh cur subs t s hs hcc]
        exact ⟨hpw, hwf, fun x hx => Nat.lt_succ_of_lt (hub x hx),
          fun _ => ⟨le_refl t, Nat.lt_succ_self t, fun x hx => hub x hx⟩⟩
      · rw [stepSub_change cur subs t s hs hcur hcc]
        obtain ⟨hcwf, hcub, hsep⟩ := hopen hcc
        refine ⟨?_, ?_, ?_, fun _ => ⟨le_refl t, Nat.lt_succ_self t, ?_⟩⟩
        · rw [List.pairwise_append]
          refine ⟨hpw, by simp, fun a ha b hb => ?_⟩
          simp at hb; subst hb; exact hsep a ha
        · intro x hx
          rcases List.mem_append.mp hx with h1 | h2
          · exact hwf x h1
          · simp at h2; subst h2; exact hcwf
        · intro x hx
          rcases List.mem_append.mp hx with h1 | h2
          · exact Nat.lt_succ_of_lt (hub x h1)
          · simp at h2; subst h2; exact Nat.lt_succ_of_lt hcub
        · intro x hx
          rcases List.mem_append.mp hx with h1 | h2
          · exact hub x h1
          · simp at h2; subst h2; exact hcub

theorem SBInv_fold (obs : List (Nat × String)) :
    ∀ (st : Sub × List Sub) (U : Nat), SBInv st U →
      List.Chain' (· < ·) (obs.map Prod.fst) →
      (∀ p ∈ obs.head?, U ≤ p.1) →
      ∃ U', SBInv (obs.foldl stepSub st) U' := by
  induction obs with
  | nil => intro st U h _ _; exact ⟨U, h⟩
  | cons a rest ih =>
      intro st U h hch hhd
      have hUa : U ≤ a.1 := hhd a rfl
      have hch1 : List.Chain' (· < ·) (a.1 :: rest.map Prod.fst) := by
        simpa using hch
      have hstep : SBInv (stepSub st a) (a.1 + 1) := by
        obtain ⟨cur, subs⟩ := st
        exact SBInv_step cur subs a.1 a.2 (SBInv_mono hUa h)
      have hch' : List.Chain' (· < ·) (rest.map Prod.fst) :=
        (List.chain'_cons'.mp hch1).2
      have hhd' : ∀ p ∈ rest.head?, a.1 + 1 ≤ p.1 := by
        intro p hp
        have hm : p.1 ∈ (rest.map Prod.fst).head? := by
          rw [List.head?_map, Option.mem_def] at *
          rw [hp]; rfl
        have := (List.chain'_cons'.mp hch1).1 p.1 hm
        omega
      simp only [List.foldl_cons]
      exact ih (stepSub st a) (a.1 + 1) hstep hch' hhd'

theorem runFrames_cancelled (frames : List FrameInput) :
    ∀ (roi : Roi) (threshold : ℚ) (k i : Nat) (st : Sub × List Sub),
      i ≤ k → k ≤ i + frames.length →
      (∀ f ∈ frames.take (k - i), f.raises = none) →
      ∃ st', runFrames roi threshold (some k) i st frames = (k, none, st') := by
  induction frames with
  | nil =>
      intro roi th k i st hik hki _
      have hek : i = k := by simp at hki; omega
      subst hek
      exact ⟨st, rfl⟩
  | cons f rest ih =>
      intro roi th k i st hik hki hr
      by_cases hk : k ≤ i
      · have hek : i = k := le_antisymm hik hk
        subst hek
        refine ⟨st, ?_⟩
        simp [runFrames, cancelledBy]
      · have hf : f.raises = none := by
          apply hr f
          have he : k - i = (k - i - 1) + 1 := by omega
          rw [he, List.take_succ_cons]
          exact List.mem_cons_self f _
        have hrest : ∀ g ∈ rest.take (k - (i + 1)), g.raises = none := by
          intro g hg
          apply hr g
          have he : k - i = (k - (i + 1)) + 1 := by omega
          rw [he, List.take_succ_cons]
          exact List.mem_cons_of_mem f hg
        obtain ⟨st', hst'⟩ := ih roi th k (i + 1)
          (if i % 5 = 0 then processSample roi th st f else st)
          (by omega) (by simp at hki ⊢; omega) hrest
        refine ⟨st', ?_⟩
        simp only [runFrames, cancelledBy, hf]
        rw [if_neg (by simpa using hk)]
        exact hst'

theorem runFrames_raise (pre : List FrameInput) :
    ∀ (roi : Roi) (threshold : ℚ) (i : Nat) (st : Sub × List Sub)
      (f : FrameInput) (post : List FrameInput) (msg : String),
      f.raises = some msg → (∀ g ∈ pre, g.raises = none) →
      ∃ st', runFrames roi threshold none i st (pre ++ f :: post)
        = (i + pre.length + 1, some msg, st') := by
  induction pre with
  | nil =>
      intro roi th i st f post msg hf _
      refine ⟨st, ?_⟩
      simp [runFrames, cancelledBy, hf]
  | cons g rest ih =>
      intro roi th i st f post msg hf hclean
      have hg : g.raises = none := hclean g (List.mem_cons_self g rest)
      obtain ⟨st', hst'⟩ := ih roi th (i + 1)
        (if i % 5 = 0 then processSample roi th st g else st)
        f post msg hf (fun g' hg' => hclean g' (List.mem_cons_of_mem g hg'))
      refine ⟨st', ?_⟩
      simp only [List.cons_append, runFrames, cancelledBy, hg, List.append_eq]
      rw [if_neg (by simp)]
      rw [hst']
      simp only [Prod.mk.injEq, List.length_cons, and_true, true_and]
      omega

/-! ## Claims -/

/-- Claim C1, counterexample: the claim asserts `format(0) = "00:00:00,000"`
with a two-digit hour field and hours not wrapped at 24, but the code
renders the hour unpadded (`format(0) = "0:00:00,000"`) and wraps hours
at 24 into a day prefix (`format(90000000) = "1 day, 1:00:00,000"`, not
`"25:00:00,000"`). -/
theorem claim_C1_counterexample :
    ms_to_srt_time 0 = "0:00:00,000" ∧ ms_to_srt_time 0 ≠ "00:00:00,000"
      ∧ ms_to_srt_time 90000000 = "1 day, 1:00:00,000"
      ∧ ms_to_srt_time 90000000 ≠ "25:00:00,000" := by
  refine ⟨by decide, by decide, by decide, by decide⟩

/-- Claim C1, amended: for every `ms` below one day the formatter returns
`H:MM:SS,mmm` where the hour field `H = ms / 3600000` is unpadded, `MM`
and `SS` are zero padded to two digits, and `mmm` is zero padded to
exactly three digits (a zero millisecond remainder yields `",000"`); in
particular `format(0) = "0:00:00,000"`, `format(1500) = "0:00:01,500"`,
`format(3661000) = "1:01:01,000"`.  For `ms ≥ 86400000` the hours wrap
at 24 into a `"D day[s], "` prefix. -/
theorem claim_C1_amended :
    (∀ ms : Nat, ms < 86400000 → ms_to_srt_time ms = srtTimeSpec ms)
    ∧ ms_to_srt_time 0 = "0:00:00,000"
    ∧ ms_to_srt_time 1500 = "0:00:01,500"
    ∧ ms_to_srt_time 3661000 = "1:01:01,000" := by
  refine ⟨?_, by decide, by decide, by decide⟩
  intro ms h
  have hd : tdDays ms = 0 := by unfold tdDays; omega
  have h1 : ms / 1000 % 86400 / 3600 = ms / 3600000 := by omega
  have h2 : ms / 1000 % 86400 / 60 % 60 = ms / 60000 % 60 := by omega
  have h3 : ms / 1000 % 86400 % 60 = ms / 1000 % 60 := by omega
  by_cases hm : ms % 1000 = 0
  · have hp : padDigits 3 (ms % 1000) = "000" := by rw [hm]; decide
    have hc : ("," : String) ++ "000" = ",000" := by decide
    rw [ms_to_srt_time, srtTimeSpec, tdStr, tdMain, tdCore, if_pos hm, if_pos hm,
      if_pos hd, h1, h2, h3, hp]
    simp only [str_append_assoc, hc]
  · have hp := padDigits_take3 (ms % 1000)
    rw [ms_to_srt_time, srtTimeSpec, tdMain, tdCore, if_neg hm, if_pos hd,
      h1, h2, h3, hp]

/-- Claim C1, witness for the amended claim at `ms = 1500`. -/
theorem claim_C1_witness :
    1500 < 86400000 ∧ ms_to_srt_time 1500 = srtTimeSpec 1500 :=
  ⟨by decide, claim_C1_amended.1 1500 (by decide)⟩

/-- Claim C2, counterexample: a sampled frame whose ROI clamps to zero
area does NOT behave as an explicit empty-text observation.  With an
open segment `{"A", 0, 0}` the degenerate sample leaves the state
untouched (the open segment is not emitted), whereas an explicit
empty-text observation would close and emit it. -/
theorem claim_C2_counterexample :
    processSample ⟨0, 0, 10, 10⟩ (3/5) ((⟨"A", 0, 0⟩ : Sub), ([] : List Sub))
        ⟨0, 0, none, [], 200⟩
      = (⟨"A", 0, 0⟩, [])
    ∧ stepSub ((⟨"A", 0, 0⟩ : Sub), ([] : List Sub)) (200, "")
      = (⟨"", 0, 0⟩, [⟨"A", 0, 0⟩])
    ∧ ((⟨"A", 0, 0⟩ : Sub), ([] : List Sub)) ≠ ((⟨"", 0, 0⟩ : Sub), [⟨"A", 0, 0⟩]) := by
  refine ⟨by decide, by decide, by decide⟩

/-- Claim C2, amended: a sampled frame whose ROI clamps to zero or
negative area is skipped entirely: no observation is produced and the
segment state machine is left exactly as it was (an open segment is
neither closed nor extended at that sample, and a later sample with the
same text resumes extending it); the sample never crashes the run. -/
theorem claim_C2_amended (roi : Roi) (threshold : ℚ) (st : Sub × List Sub)
    (f : FrameInput) (h : cropNonempty roi f = false) :
    processSample roi threshold st f = st := by
  simp [processSample, h]

/-- Claim C2, witness for the amended claim on a concrete degenerate
sample. -/
theorem claim_C2_witness :
    cropNonempty ⟨0, 0, 10, 10⟩ ⟨0, 0, none, [], 200⟩ = false ∧
    processSample ⟨0, 0, 10, 10⟩ ((3:ℚ)/5) ((⟨"A", 0, 0⟩ : Sub), ([] : List Sub))
        ⟨0, 0, none, [], 200⟩
      = (⟨"A", 0, 0⟩, []) :=
  ⟨by decide, claim_C2_amended _ _ _ _ (by decide)⟩

/-- Claim C3: the segment builder follows the stated state machine.  The
spec's merging stream yields exactly one closed segment `{"A", 0, 200}`;
a nonempty observation equal to the open text extends `end_ms`; a
differing nonempty observation closes the current segment and opens a new
one with `start = end =` the new timestamp; and a maximal run of
identical nonempty observations closed by an empty observation yields
exactly one segment spanning the run's first to last timestamp. -/
theorem claim_C3 :
    buildSegments [(0, "A"), (100, "A"), (200, "A"), (300, "")] = [⟨"A", 0, 200⟩]
    ∧ (∀ (cur : Sub) (subs : List Sub) (t : Nat) (s : String),
        s ≠ "" → cur.text = s →
        stepSub (cur, subs) (t, s) = ({cur with end_ms := t}, subs))
    ∧ (∀ (cur : Sub) (subs : List Sub) (t : Nat) (s : String),
        s ≠ "" → cur.text ≠ s → cur.text ≠ "" →
        stepSub (cur, subs) (t, s) = (⟨s, t, t⟩, subs ++ [cur]))
    ∧ (∀ (t t' : Nat) (ts : List Nat) (s : String), s ≠ "" →
        buildSegments (((t :: ts).map fun u => (u, s)) ++ [(t', "")])
          = [⟨s, t, ts.getLastD t⟩]) := by
  refine ⟨by decide,
    fun cur subs t s hs hcur => stepSub_extend cur subs t s hs hcur,
    fun cur subs t s hs hne hopen => stepSub_change cur subs t s hs hne hopen, ?_⟩
  intro t t' ts s hs
  unfold buildSegments
  rw [List.foldl_append]
  simp only [List.map_cons, List.foldl_cons, List.foldl_nil]
  rw [stepSub_fresh ⟨"", 0, 0⟩ [] t s hs rfl]
  rw [extendRun ts ⟨s, t, t⟩ [] s rfl hs]
  rw [stepSub_empty_close ⟨s, t, ts.getLastD t⟩ [] t' hs]
  simp [flushSegs]

/-- Claim C3, witness: the close-and-reopen transition at a concrete
state and observation. -/
theorem claim_C3_witness :
    (("B" : String) ≠ "" ∧ (⟨"A", 0, 0⟩ : Sub).text ≠ "B"
      ∧ (⟨"A", 0, 0⟩ : Sub).text ≠ "")
    ∧ stepSub ((⟨"A", 0, 0⟩ : Sub), ([] : List Sub)) (5, "B")
      = (⟨"B", 5, 5⟩, [⟨"A", 0, 0⟩]) :=
  ⟨⟨by decide, by decide, by decide⟩,
    claim_C3.2.2.1 ⟨"A", 0, 0⟩ [] 5 "B" (by decide) (by decide) (by decide)⟩

/-- Claim C4: an observation stream ending while a segment is open still
yields that segment: appending a closing empty observation changes
nothing (the trailing flush behaves exactly like closure by
disappearance), and whenever the fold ends with an open segment the
output is the closed list with that segment appended after it. -/
theorem claim_C4 :
    (∀ (obs : List (Nat × String)) (t : Nat),
        buildSegments (obs ++ [(t, "")]) = buildSegments obs)
    ∧ (∀ (obs : List (Nat × String)) (cur : Sub) (subs : List Sub),
        obs.foldl stepSub (⟨"", 0, 0⟩, []) = (cur, subs) → cur.text ≠ "" →
        buildSegments obs = subs ++ [cur]) := by
  constructor
  · intro obs t
    unfold buildSegments
    rw [List.foldl_append]
    rcases hfold : obs.foldl stepSub ((⟨"", 0, 0⟩ : Sub), ([] : List Sub)) with ⟨cur, subs⟩
    simp only [List.foldl_cons, List.foldl_nil]
    by_cases hc : cur.text = ""
    · rw [stepSub_empty_stay cur subs t hc]
    · rw [stepSub_empty_close cur subs t hc]
      simp [flushSegs, hc]
  · intro obs cur subs hfold hopen
    unfold buildSegments
    rw [hfold]
    simp [flushSegs, hopen]

/-- Claim C4, witness: a one-observation stream with no trailing empty
observation still yields its open segment. -/
theorem claim_C4_witness :
    ([((5:Nat), "A")].foldl stepSub ((⟨"", 0, 0⟩ : Sub), ([] : List Sub))
        = (⟨"A", 5, 5⟩, [])
      ∧ (⟨"A", 5, 5⟩ : Sub).text ≠ "")
    ∧ buildSegments [((5:Nat), "A")] = [] ++ [⟨"A", 5, 5⟩] :=
  ⟨⟨by decide, by decide⟩,
    claim_C4.2 [(5, "A")] ⟨"A", 5, 5⟩ [] (by decide) (by decide)⟩

/-- Claim C5: the serializer's duration filter keeps exactly the segments
with `end_ms - start_ms ≥ 100` (the boundary `= 100` is retained, since
the code drops on the strict `< 100`), in their original order. -/
theorem claim_C5 (subs : List Sub) :
    (srtBlocks 1 subs).map Prod.snd
      = subs.filter fun s => decide (100 ≤ s.end_ms - s.start_ms) := by
  rw [srtBlocks_eq_specNumbered, specNumbered_map_snd]

/-- Claim C6: a detection whose score equals the threshold is excluded
(strict `>`), a non-numeric or missing score is treated as `0` and
excluded for every nonnegative threshold, the kept lines are exactly the
filter of the detection list in reported order, and the surviving texts
are joined with single spaces and stripped. -/
theorem claim_C6 :
    (∀ (threshold : ℚ) (l : Detection), l.score = some threshold →
        surviving threshold [l] = [])
    ∧ (∀ (threshold : ℚ) (l : Detection), 0 ≤ threshold → l.score = none →
        surviving threshold [l] = [])
    ∧ (∀ (threshold : ℚ) (result : List Detection),
        surviving threshold result
          = (result.filter fun l => decide (coerceScore l.score > threshold)).map
              Detection.text)
    ∧ detectedText (3/5)
        [⟨"hi", some (7/10)⟩, ⟨"mid", some (3/5)⟩, ⟨"bad", none⟩, ⟨"there", some 1⟩]
      = "hi there" := by
  have hsurv : surviving (3/5)
      [⟨"hi", some (7/10)⟩, ⟨"mid", some (3/5)⟩, ⟨"bad", none⟩, ⟨"there", some 1⟩]
      = ["hi", "there"] := by
    norm_num [surviving, coerceScore]
  refine ⟨?_, ?_, ?_, by rw [detectedText, hsurv]; decide⟩
  · intro th l hl
    simp [surviving, coerceScore, hl]
  · intro th l hth hl
    have hneg : ¬ ((0:ℚ) > th) := not_lt.mpr hth
    simp [surviving, coerceScore, hl, hneg]
  · intro th result
    induction result with
    | nil => rfl
    | cons l rest ih =>
        by_cases hl : coerceScore l.score > th
        · simp [surviving, hl, ih, List.filter_cons]
        · simp [surviving, hl, ih, List.filter_cons]

/-- Claim C6, witness: a detection scoring exactly the threshold is
rejected. -/
theorem claim_C6_witness :
    (Detection.score ⟨"x", some ((3:ℚ)/5)⟩ = some ((3:ℚ)/5))
    ∧ surviving ((3:ℚ)/5) [⟨"x", some ((3:ℚ)/5)⟩] = [] :=
  ⟨rfl, claim_C6.1 ((3:ℚ)/5) ⟨"x", some ((3:ℚ)/5)⟩ rfl⟩

/-- Claim C9: serialization writes one block per surviving segment in
order — index line, `start --> end` line, text line, blank separator —
with indices reassigned sequentially from 1 among survivors only, with
no gaps. -/
theorem claim_C9 (subs : List Sub) :
    write_srt subs
      = String.join
          ((specNumbered 1 (subs.filter fun s => decide (100 ≤ s.end_ms - s.start_ms))).map
            fun p => toString p.1 ++ "\n" ++ ms_to_srt_time p.2.start_ms ++ " --> " ++
              ms_to_srt_time p.2.end_ms ++ "\n" ++ p.2.text ++ "\n\n") := by
  unfold write_srt
  rw [srtBlocks_eq_specNumbered]
  simp only [srtBlock]

/-- Claim C7: when cancellation is requested after `k` consumed frames
(during the run), the worker stops at the next poll, releases the video
capture, and terminates with no completion signal, no error signal and
no output file written — whatever the write phase would have done. -/
theorem claim_C7 (roi : Roi) (threshold : ℚ) (output_path : String)
    (frames : List FrameInput) (k : Nat) (writeFault : Option (Nat × String))
    (hk : k ≤ frames.length) (hclean : ∀ f ∈ frames.take k, f.raises = none) :
    runWorker roi threshold output_path frames (some k) writeFault
      = ⟨k, true, none, none, none⟩ := by
  obtain ⟨st', hst'⟩ := runFrames_cancelled frames roi threshold k 0
    ((⟨"", 0, 0⟩ : Sub), ([] : List Sub)) (Nat.zero_le k) (by omega)
    (by simpa using hclean)
  unfold runWorker
  rw [hst']
  simp [cancelledBy]

/-- Claim C7, witness: cancelling after the first of two clean frames. -/
theorem claim_C7_witness :
    (1 ≤ ([⟨2, 2, none, [], 40⟩, ⟨2, 2, none, [], 80⟩] : List FrameInput).length
      ∧ ∀ f ∈ ([⟨2, 2, none, [], 40⟩, ⟨2, 2, none, [], 80⟩] : List FrameInput).take 1,
          f.raises = none)
    ∧ runWorker ⟨0, 0, 2, 2⟩ ((3:ℚ)/5) "out.srt"
        [⟨2, 2, none, [], 40⟩, ⟨2, 2, none, [], 80⟩] (some 1) none
      = ⟨1, true, none, none, none⟩ :=
  ⟨⟨by decide, by decide⟩,
    claim_C7 ⟨0, 0, 2, 2⟩ ((3:ℚ)/5) "out.srt"
      [⟨2, 2, none, [], 40⟩, ⟨2, 2, none, [], 80⟩] 1 none (by decide) (by decide)⟩

/-- Claim C8, counterexample: the `try` block wraps `write_srt` (main.py
line 160), so an exception raised by a write call mid-serialization
reaches the `except` after part of the file has been written and
flushed.  On a clean six-frame run producing the surviving segment
`{"A", 0, 200}`, a fault at the second write call leaves the partial
file `"1\n"` on disk — a nonempty proper prefix of the complete output —
falsifying "no partial output file is written" while the exception is
still reported by exactly one failure signal. -/
theorem claim_C8_counterexample :
    runWorker ⟨0, 0, 2, 2⟩ 0 "out.srt"
        [⟨2, 2, none, [⟨"A", some 1⟩], 0⟩, ⟨2, 2, none, [], 40⟩,
          ⟨2, 2, none, [], 80⟩, ⟨2, 2, none, [], 120⟩, ⟨2, 2, none, [], 160⟩,
          ⟨2, 2, none, [⟨"A", some 1⟩], 200⟩]
        none (some (1, "disk full"))
      = ⟨6, true, some "disk full", none, some "1\n"⟩
    ∧ ("1\n" : String) ≠ ""
    ∧ write_srt [⟨"A", 0, 200⟩] = "1\n0:00:00,000 --> 0:00:00,200\nA\n\n"
    ∧ ("1\n" : String) ≠ write_srt [⟨"A", 0, 200⟩] := by
  refine ⟨by decide, by decide, by decide, by decide⟩

/-- Claim C8, amended: an unhandled exception during the sampling phase
(frame decode or OCR) aborts the run with exactly one failure signal
carrying the original error's description, no completion signal, and no
output file written at all.  An unhandled exception during the final
serialization write likewise aborts the run with exactly one failure
signal and no completion signal, but the output file keeps the prefix
already written before the failure: the write is not atomic, so a
partial output file can remain. -/
theorem claim_C8_amended :
    (∀ (roi : Roi) (threshold : ℚ) (output_path : String)
        (pre post : List FrameInput) (f : FrameInput) (msg : String)
        (writeFault : Option (Nat × String)),
      f.raises = some msg → (∀ g ∈ pre, g.raises = none) →
      runWorker roi threshold output_path (pre ++ f :: post) none writeFault
        = ⟨pre.length + 1, false, some msg, none, none⟩)
    ∧ (∀ (roi : Roi) (threshold : ℚ) (output_path : String)
        (frames : List FrameInput) (n m : Nat) (st : Sub × List Sub) (msg : String),
      runFrames roi threshold none 0 (⟨"", 0, 0⟩, []) frames = (n, none, st) →
      m < (writeCalls (flushSegs st)).length →
      runWorker roi threshold output_path frames none (some (m, msg))
        = ⟨n, true, some msg, none,
            some (String.join ((writeCalls (flushSegs st)).take m))⟩) := by
  constructor
  · intro roi threshold output_path pre post f msg writeFault hf hclean
    obtain ⟨st', hst'⟩ := runFrames_raise pre roi threshold 0
      ((⟨"", 0, 0⟩ : Sub), ([] : List Sub)) f post msg hf hclean
    rw [show (0:Nat) + pre.length + 1 = pre.length + 1 from by omega] at hst'
    unfold runWorker
    rw [hst']
  · intro roi threshold output_path frames n m st msg hfold hm
    unfold runWorker
    rw [hfold]
    simp [cancelledBy, hm]

/-- Claim C8, witness for the write-phase conjunct: on the clean
six-frame run the fault at the second write call yields the partial
file. -/
theorem claim_C8_witness :
    (runFrames ⟨0, 0, 2, 2⟩ 0 none 0 (⟨"", 0, 0⟩, [])
        [⟨2, 2, none, [⟨"A", some 1⟩], 0⟩, ⟨2, 2, none, [], 40⟩,
          ⟨2, 2, none, [], 80⟩, ⟨2, 2, none, [], 120⟩, ⟨2, 2, none, [], 160⟩,
          ⟨2, 2, none, [⟨"A", some 1⟩], 200⟩]
        = (6, none, ((⟨"A", 0, 200⟩ : Sub), ([] : List Sub)))
      ∧ 1 < (writeCalls (flushSegs ((⟨"A", 0, 200⟩ : Sub), ([] : List Sub)))).length)
    ∧ runWorker ⟨0, 0, 2, 2⟩ 0 "out.srt"
        [⟨2, 2, none, [⟨"A", some 1⟩], 0⟩, ⟨2, 2, none, [], 40⟩,
          ⟨2, 2, none, [], 80⟩, ⟨2, 2, none, [], 120⟩, ⟨2, 2, none, [], 160⟩,
          ⟨2, 2, none, [⟨"A", some 1⟩], 200⟩]
        none (some (1, "disk full"))
      = ⟨6, true, some "disk full", none,
          some (String.join
            ((writeCalls (flushSegs ((⟨"A", 0, 200⟩ : Sub), ([] : List Sub)))).take 1))⟩ :=
  ⟨⟨by decide, by decide⟩,
    claim_C8_amended.2 ⟨0, 0, 2, 2⟩ 0 "out.srt"
      [⟨2, 2, none, [⟨"A", some 1⟩], 0⟩, ⟨2, 2, none, [], 40⟩,
        ⟨2, 2, none, [], 80⟩, ⟨2, 2, none, [], 120⟩, ⟨2, 2, none, [], 160⟩,
        ⟨2, 2, none, [⟨"A", some 1⟩], 200⟩]
      6 1 ((⟨"A", 0, 200⟩ : Sub), ([] : List Sub)) "disk full"
      (by decide) (by decide)⟩

/-- Claim C10: for strictly increasing observation timestamps, every
emitted segment satisfies `start_ms ≤ end_ms` and the emitted segments
are pairwise disjoint in time: each one's `end_ms` is strictly below any
later one's `start_ms`. -/
theorem claim_C10 (obs : List (Nat × String))
    (h : List.Chain' (· < ·) (obs.map Prod.fst)) :
    (∀ s ∈ buildSegments obs, s.start_ms ≤ s.end_ms)
    ∧ (buildSegments obs).Pairwise (fun a b => a.end_ms < b.start_ms) := by
  have hhd : ∀ p ∈ obs.head?, (obs.head?.elim 0 Prod.fst : Nat) ≤ p.1 := by
    intro p hp
    rw [Option.mem_def] at hp
    rw [hp]
    exact le_refl p.1
  obtain ⟨U', hfin⟩ := SBInv_fold obs (⟨"", 0, 0⟩, []) (obs.head?.elim 0 Prod.fst)
    (SBInv_init _) h hhd
  rcases hst : obs.foldl stepSub ((⟨"", 0, 0⟩ : Sub), ([] : List Sub)) with ⟨cur, subs⟩
  rw [hst] at hfin
  obtain ⟨hpw, hwf, hub, hopen⟩ := hfin
  unfold buildSegments
  rw [hst]
  by_cases hcur : cur.text = ""
  · simp only [flushSegs, hcur, ne_eq, not_true_eq_false, if_false]
    exact ⟨hwf, hpw⟩
  · simp only [flushSegs, ne_eq, hcur, not_false_eq_true, if_true]
    obtain ⟨hcwf, hcub, hsep⟩ := hopen hcur
    constructor
    · intro x hx
      rcases List.mem_append.mp hx with h1 | h2
      · exact hwf x h1
      · simp at h2; subst h2; exact hcwf
    · rw [List.pairwise_append]
      refine ⟨hpw, by simp, fun a ha b hb => ?_⟩
      simp at hb; subst hb; exact hsep a ha

/-- Claim C10, witness on the two-observation stream
`[(0, "A"), (100, "B")]`. -/
theorem claim_C10_witness :
    List.Chain' (· < ·) (([((0:Nat), "A"), (100, "B")]).map Prod.fst)
    ∧ ((∀ s ∈ buildSegments [((0:Nat), "A"), (100, "B")], s.start_ms ≤ s.end_ms)
      ∧ (buildSegments [((0:Nat), "A"), (100, "B")]).Pairwise
          fun a b => a.end_ms < b.start_ms) :=
  ⟨by simp [List.chain'_cons, List.chain'_singleton],
    claim_C10 [(0, "A"), (100, "B")]
      (by simp [List.chain'_cons, List.chain'_singleton])⟩

end VideoOcr
